import Mathlib

/-!
Verification development for the station-tracker client (GeoSentinel service).

The main process (src/main.js) keeps a durable outbox of location records in a
SQLite table `locations(id INTEGER PRIMARY KEY AUTOINCREMENT, latitude, longitude,
timestamp)`, a volatile session token, and a retry delay used by the sync worker.
We embed that state and the handlers (`sendLocation`, `sendHeartbeat`, the
`autoLogin` IPC handler, `tryReLogin`, and one iteration of the `startSyncWorker`
loop body) as pure Lean functions.  Network and storage outcomes (whether an
axios call or a database statement succeeds) are passed in explicitly as
parameters, so each handler is a total function of the pre-state and the
environment's outcomes.  Network traffic is made observable by returning the
list of remote calls a handler issues.
-/

/-- Base retry delay of the sync worker: `retryDelay = 10000` in src/main.js. -/
def baseDelay : Nat := 10000

/-- Cap of the retry delay: the literal `60000` in `Math.min(retryDelay * 2, 60000)`. -/
def capDelay : Nat := 60000

/-- The failure update of the retry delay:
`retryDelay = Math.min(retryDelay * 2, 60000)` (src/main.js lines 267 and 298). -/
def backoffFail (d : Nat) : Nat := min (d * 2) capDelay

/-- One row of the `locations` table (src/main.js lines 136-143).
`id` is the AUTOINCREMENT rowid; latitude/longitude are carried opaquely as
integers (their numeric value is never inspected by the client logic);
`timestamp` is the epoch-millisecond value `Date.now()` stored at insertion. -/
structure LocationRecord where
  id : Nat
  latitude : Int
  longitude : Int
  timestamp : Nat
deriving DecidableEq

/-- The `locations` table.  `rows` lists the live rows in rowid order — the
order of the SQLite table B-tree, which is keyed by the AUTOINCREMENT primary
key, and hence the order in which a full scan (`SELECT * FROM locations`)
returns rows.  `nextId` is the next AUTOINCREMENT id. -/
structure Outbox where
  rows : List LocationRecord
  nextId : Nat
deriving DecidableEq

/-- The batch read of the sync worker:
`db.prepare("SELECT * FROM locations LIMIT 20").all()` (src/main.js line 272) —
the first 20 rows of the table scan. -/
def peekBatch (ob : Outbox) : List LocationRecord := ob.rows.take 20

/-- One `DELETE FROM locations WHERE id = ?` statement. -/
def deleteById (i : Nat) (ob : Outbox) : Outbox :=
  ⟨ob.rows.filter (fun r => r.id != i), ob.nextId⟩

/-- The post-upload delete transaction (src/main.js lines 285-292):
`db.transaction(() => { rows.forEach(row => ... DELETE ... row.id) })` — a fold
of single-row deletes executed as one atomic SQLite transaction, hence a single
transition of the store here. -/
def deleteBatch (ids : List Nat) (ob : Outbox) : Outbox :=
  ids.foldl (fun acc i => deleteById i acc) ob

/-- Remote HTTP operations the client can issue (§6 of the spec / the axios
posts in src/main.js and the src/unnamed variants). -/
inductive NetCall where
  | login
  | singleUpdate
  | batchUpdate
  | heartbeat
  | clientLog
deriving DecidableEq

/-- The in-memory state of the main process: the database handle (`none` before
`app.whenReady` initializes it, src/main.js lines 58 and 134), the volatile
session token `authToken` (line 56), and the sync worker delay `retryDelay`
(line 57). -/
structure AppState where
  db : Option Outbox
  authToken : Option String
  retryDelay : Nat
deriving DecidableEq

/-- The rows of the store visible in a state (empty when the handle is absent). -/
def rowsOf (s : AppState) : List LocationRecord :=
  match s.db with
  | none => []
  | some ob => ob.rows

/-- The `sendLocation` IPC handler (src/main.js lines 202-226).
`singleUploadOk` is the outcome of the immediate single-record
`POST /api/location/update`.  The handler: returns at once if `db` is not
initialized; inserts the sample; returns if no token is held; otherwise posts
the single update and deletes the freshly inserted row only when that post
succeeded (the `catch` swallows failures). -/
def sendLocation (lat lng : Int) (now : Nat) (singleUploadOk : Bool) (s : AppState) :
    AppState × List NetCall :=
  match s.db with
  | none => (s, [])
  | some ob =>
    let inserted : LocationRecord := ⟨ob.nextId, lat, lng, now⟩
    let ob1 : Outbox := ⟨ob.rows ++ [inserted], ob.nextId + 1⟩
    match s.authToken with
    | none => ({ s with db := some ob1 }, [])
    | some _ =>
      if singleUploadOk then
        ({ s with db := some (deleteById inserted.id ob1) }, [NetCall.singleUpdate])
      else
        ({ s with db := some ob1 }, [NetCall.singleUpdate])

/-- The `sendHeartbeat` IPC handler of src/main.js (lines 228-237): returns at
once when no token is held; otherwise posts `/api/heartbeat`; the `catch { }`
block is empty, so neither outcome changes any state. `hbOk` is the outcome of
the post. -/
def sendHeartbeat (hbOk : Bool) (s : AppState) : AppState × List NetCall :=
  match s.authToken with
  | none => (s, [])
  | some _ =>
    if hbOk then (s, [NetCall.heartbeat]) else (s, [NetCall.heartbeat])

/-- The `sendHeartbeat` IPC handler of the src/unnamed/part_000 variant (lines
187-207): it runs `loginIfNeeded` first and its catch block does
`authToken = null` on failure (and also issues best-effort client-log posts,
omitted here; `loginOk` abstracts the `loginIfNeeded` outcome). -/
def sendHeartbeatV0 (loginOk : Bool) (hbOk : Bool) (s : AppState) : AppState × List NetCall :=
  if !loginOk then (s, [])
  else if hbOk then (s, [NetCall.heartbeat])
  else ({ s with authToken := none }, [NetCall.heartbeat])

/-- The `autoLogin` IPC handler (src/main.js lines 191-200): posts the login;
on success stores the token and resets `retryDelay` to 10000 and returns true;
on failure returns false.  `resp` is the token returned by the remote service
(`none` = network error or rejection). -/
def autoLogin (resp : Option String) (s : AppState) : Bool × AppState × List NetCall :=
  match resp with
  | some tok => (true, { s with authToken := some tok, retryDelay := 10000 }, [NetCall.login])
  | none => (false, s, [NetCall.login])

/-- The `tryReLogin` function (src/main.js lines 242-253): reads the station id
from config (`stationId`, `none` when the config file is missing or
unparsable); returns false at once — issuing no network call — when it is
absent; otherwise posts the login, storing the token on success. -/
def tryReLogin (stationId : Option String) (resp : Option String) (s : AppState) :
    Bool × AppState × List NetCall :=
  match stationId with
  | none => (false, s, [])
  | some _ =>
    match resp with
    | some tok => (true, { s with authToken := some tok }, [NetCall.login])
    | none => (false, s, [NetCall.login])

/-- The `loginIfNeeded` function of the src/unnamed/part_000 variant (lines
99-122): if a token is already held it returns true at once with no network
traffic; otherwise, with no station id it posts a best-effort client log and
returns false; otherwise it posts the login (followed by a client-log post
either way) and stores the token on success. -/
def loginIfNeeded (stationId : Option String) (resp : Option String) (s : AppState) :
    Bool × AppState × List NetCall :=
  match s.authToken with
  | some _ => (true, s, [])
  | none =>
    match stationId with
    | none => (false, s, [NetCall.clientLog])
    | some _ =>
      match resp with
      | some tok =>
        (true, { s with authToken := some tok }, [NetCall.login, NetCall.clientLog])
      | none => (false, s, [NetCall.login, NetCall.clientLog])

/-- Repeated invocation of `loginIfNeeded`, threading the state and collecting
every network call issued across the calls. -/
def loginIterate : Nat → Option String → Option String → AppState → AppState × List NetCall
  | 0, _, _, s => (s, [])
  | n + 1, stationId, resp, s =>
    let out := loginIfNeeded stationId resp s
    let rest := loginIterate n stationId resp out.2.1
    (rest.1, out.2.2 ++ rest.2)

/-- The environment's outcomes for one iteration of the sync worker loop:
the station id read from config, the remote login response (when a login is
attempted), and whether the batch read statement, the batch upload post and the
delete transaction succeed. -/
structure CycleEnv where
  stationId : Option String
  loginResp : Option String
  readOk : Bool
  uploadOk : Bool
  deleteOk : Bool
deriving DecidableEq

/-- Kinds of exception that can be raised inside the `try` block of the sync
worker body: a local storage error (a throwing `db.prepare(...)` call, or a
call on an uninitialized handle) or a network/server error (axios throws on
connection failure, timeout and non-2xx status). -/
inductive CycleErr where
  | storage
  | network
deriving DecidableEq

/-- The part of the sync worker body after authentication succeeded
(src/main.js lines 272-294): read up to 20 rows (a throwing read is a storage
error); if none, reset the delay; otherwise post the batch (`uploadOk = false`
raises a network error), then run the delete transaction (`deleteOk = false`
raises a storage error with the transaction rolled back), and reset the delay. -/
def syncRest (env : CycleEnv) (s : AppState) : Except CycleErr AppState :=
  match s.db with
  | none => .error .storage
  | some ob =>
    if !env.readOk then .error .storage
    else
      let rows := peekBatch ob
      if rows.length = 0 then .ok { s with retryDelay := 10000 }
      else if !env.uploadOk then .error .network
      else if !env.deleteOk then .error .storage
      else
        .ok { s with db := some (deleteBatch (rows.map (fun r => r.id)) ob),
                     retryDelay := 10000 }

/-- The `try` block of one iteration of `startSyncWorker` (src/main.js lines
262-295) as an `Except` computation: if no token is held, run `tryReLogin`; on
its failure double the (capped) delay and `continue` — a normal exit, not an
exception; otherwise proceed with `syncRest`.  An `.error` result is an
exception reaching the `catch`. -/
def syncCycleBody (env : CycleEnv) (s : AppState) : Except CycleErr AppState :=
  match s.authToken with
  | none =>
    match tryReLogin env.stationId env.loginResp s with
    | (false, s1, _) => .ok { s1 with retryDelay := backoffFail s1.retryDelay }
    | (true, s1, _) => syncRest env s1
  | some _ => syncRest env s

/-- One full iteration of the sync worker loop (src/main.js lines 259-300):
the body's exceptions are caught by the `catch` block, which sets
`authToken = null` and `retryDelay = Math.min(retryDelay * 2, 60000)`; nothing
escapes the iteration. -/
def syncCycle (env : CycleEnv) (s : AppState) : AppState :=
  match syncCycleBody env s with
  | .ok s1 => s1
  | .error _ => { s with authToken := none, retryDelay := backoffFail s.retryDelay }

/-- Whether the authentication step of a cycle comes out holding a token:
either one was already held, or the config has a station id and the remote
login answers with a token. -/
def cycleAuthOk (env : CycleEnv) (s : AppState) : Bool :=
  s.authToken.isSome || (env.stationId.isSome && env.loginResp.isSome)

/-- Whether a cycle is a failed cycle: authentication fails, or the store read
throws (including an uninitialized handle), or there are pending rows and the
upload or the delete fails.  A cycle with nothing pending is a success. -/
def cycleFails (env : CycleEnv) (s : AppState) : Bool :=
  if !cycleAuthOk env s then true
  else
    match s.db with
    | none => true
    | some ob =>
      if !env.readOk then true
      else if (peekBatch ob).length = 0 then false
      else !env.uploadOk || !env.deleteOk

/-- The operations that touch the main-process state, each carrying the
environment outcomes its handler consumes. -/
inductive Op where
  | sendLoc (lat lng : Int) (now : Nat) (singleUploadOk : Bool)
  | heartbeat (hbOk : Bool)
  | login (resp : Option String)
  | cycle (env : CycleEnv)
deriving DecidableEq

/-- The state transition of each operation. -/
def applyOp : Op → AppState → AppState
  | .sendLoc lat lng now up, s => (sendLocation lat lng now up s).1
  | .heartbeat ok, s => (sendHeartbeat ok s).1
  | .login resp, s => (autoLogin resp s).2.1
  | .cycle env, s => syncCycle env s

/-- Well-formedness of the store: rows are strictly increasing in id (the
rowid B-tree order with AUTOINCREMENT ids) and every id is below `nextId`. -/
def OutboxWF (ob : Outbox) : Prop :=
  ob.rows.Pairwise (fun a b => a.id < b.id) ∧ ∀ r ∈ ob.rows, r.id < ob.nextId

/-- Well-formedness of a state: its store, when initialized, is well-formed. -/
def StateWF (s : AppState) : Prop :=
  ∀ ob, s.db = some ob → OutboxWF ob

/-- The state right after `app.whenReady` created the (empty) table. -/
def initialState : AppState := ⟨some ⟨[], 1⟩, none, 10000⟩

/-- A sync cycle performed an acknowledged batch upload whose records include
`r`: authentication held a token, the batch read succeeded on the initialized
store, the upload post succeeded, and the delete transaction committed. -/
def ackedBatchDelete (env : CycleEnv) (s : AppState) (r : LocationRecord) : Prop :=
  cycleAuthOk env s = true ∧ env.readOk = true ∧ env.uploadOk = true ∧
    env.deleteOk = true ∧ ∃ ob, s.db = some ob ∧ r ∈ peekBatch ob

/-! ### Store lemmas -/

theorem mem_deleteById (i : Nat) (ob : Outbox) (r : LocationRecord) :
    r ∈ (deleteById i ob).rows ↔ r ∈ ob.rows ∧ r.id ≠ i := by
  simp [deleteById, List.mem_filter]

theorem nextId_deleteById (i : Nat) (ob : Outbox) :
    (deleteById i ob).nextId = ob.nextId := rfl

theorem deleteBatch_cons (i : Nat) (is : List Nat) (ob : Outbox) :
    deleteBatch (i :: is) ob = deleteBatch is (deleteById i ob) := rfl

theorem mem_deleteBatch (ids : List Nat) (ob : Outbox) (r : LocationRecord) :
    r ∈ (deleteBatch ids ob).rows ↔ r ∈ ob.rows ∧ r.id ∉ ids := by
  induction ids generalizing ob with
  | nil => simp [deleteBatch]
  | cons i is ih =>
    rw [deleteBatch_cons, ih, mem_deleteById]
    simp [List.mem_cons]
    tauto

theorem nextId_deleteBatch (ids : List Nat) (ob : Outbox) :
    (deleteBatch ids ob).nextId = ob.nextId := by
  induction ids generalizing ob with
  | nil => rfl
  | cons i is ih => rw [deleteBatch_cons, ih, nextId_deleteById]

theorem rows_deleteBatch (ids : List Nat) (ob : Outbox) :
    (deleteBatch ids ob).rows = ob.rows.filter (fun r => !decide (r.id ∈ ids)) := by
  induction ids generalizing ob with
  | nil => simp [deleteBatch]
  | cons i is ih =>
    rw [deleteBatch_cons, ih]
    simp only [deleteById, List.filter_filter]
    apply List.filter_congr
    intro r _
    by_cases h1 : r.id = i <;> by_cases h2 : r.id ∈ is <;> simp [h1, h2]

/-! ### C3, C6, C8, C10 -/

/-- C3: the post-upload delete step removes exactly the listed identifiers as a
single store transition (the fold of single-row deletes is wrapped in one
SQLite transaction): the surviving rows are precisely the previous rows whose
id is not listed — so every listed id is removed, no other row is removed —
and the id counter is untouched. -/
theorem c3_deleteBatch_exact (ids : List Nat) (ob : Outbox) :
    (deleteBatch ids ob).rows = ob.rows.filter (fun r => !decide (r.id ∈ ids)) ∧
    (deleteBatch ids ob).nextId = ob.nextId :=
  ⟨rows_deleteBatch ids ob, nextId_deleteBatch ids ob⟩

/-- A concrete state holding a session token, used to evaluate the heartbeat
handler of src/main.js on a failing invocation. -/
def hbState : AppState := ⟨some ⟨[], 1⟩, some "tok", 10000⟩

/-- C6 counterexample: in src/main.js the heartbeat handler's `catch { }` block
is empty, so a failing heartbeat invocation does NOT invalidate the session
token: from a state holding token "tok", after a failed heartbeat the token is
still "tok", not absent — refuting the claim that the failure sets it to
absent. -/
theorem c6_counterexample :
    hbState.authToken = some "tok" ∧
    (sendHeartbeat false hbState).1.authToken = some "tok" ∧
    (sendHeartbeat false hbState).1.authToken ≠ none := by
  refine ⟨rfl, rfl, ?_⟩
  simp [sendHeartbeat, hbState]

/-- The heartbeat handler of src/main.js never changes the state. -/
theorem sendHeartbeat_state (hbOk : Bool) (s : AppState) :
    (sendHeartbeat hbOk s).1 = s := by
  unfold sendHeartbeat
  cases s.authToken <;> cases hbOk <;> rfl

/-- C6 amended: a heartbeat invocation of src/main.js, failing or not, leaves
the whole state — session token, outbox store contents, and backoff delay —
unchanged (the failure is silently absorbed). -/
theorem c6_heartbeat_frame (hbOk : Bool) (s : AppState) :
    (sendHeartbeat hbOk s).1 = s :=
  sendHeartbeat_state hbOk s

/-- Supporting observation (not a claim): in the src/unnamed/part_000 variant
the heartbeat catch block does set `authToken = null`, leaving store and delay
unchanged — the behaviour the spec sentence describes matches that variant. -/
theorem sendHeartbeatV0_failure_invalidates (s : AppState) :
    (sendHeartbeatV0 true false s).1 = { s with authToken := none } := rfl

/-- C8: an authentication attempt (`tryReLogin`, src/main.js lines 242-253)
made while the station identifier is absent from configuration returns false
at once, changes no state, and issues no network call of any kind. -/
theorem c8_no_station_no_network (resp : Option String) (s : AppState) :
    tryReLogin none resp s = (false, s, []) := rfl

/-- C10: a `sendLocation` call arriving while the database handle is not yet
initialized returns with the state unchanged — nothing inserted, no network
call, no error raised (the handler is `if (!db) return;`), so the sample is
silently dropped. -/
theorem c10_drop_when_uninitialized (lat lng : Int) (now : Nat) (up : Bool)
    (s : AppState) (h : s.db = none) :
    sendLocation lat lng now up s = (s, []) := by
  simp [sendLocation, h]

/-- C10 witness: the theorem evaluated at a concrete uninitialized state. -/
theorem c10_witness :
    (⟨none, none, 10000⟩ : AppState).db = none ∧
    sendLocation 1 2 3 true ⟨none, none, 10000⟩ = (⟨none, none, 10000⟩, []) :=
  ⟨rfl, c10_drop_when_uninitialized 1 2 3 true ⟨none, none, 10000⟩ rfl⟩

/-! ### Invariant and cycle lemmas -/

theorem pairwise_id_inj (l : List LocationRecord) :
    l.Pairwise (fun a b => a.id < b.id) →
      ∀ a b, a ∈ l → b ∈ l → a.id = b.id → a = b := by
  induction l with
  | nil => intro _ a b ha; cases ha
  | cons x xs ih =>
    intro hp a b ha hb hid
    rcases List.pairwise_cons.mp hp with ⟨hx, hxs⟩
    rcases List.mem_cons.mp ha with rfl | ha'
    · rcases List.mem_cons.mp hb with rfl | hb'
      · rfl
      · exact absurd hid (by have := hx b hb'; omega)
    · rcases List.mem_cons.mp hb with rfl | hb'
      · exact absurd hid (by have := hx a ha'; omega)
      · exact ih hxs a b ha' hb' hid

theorem rowsOf_congr (x y : AppState) (h : x.db = y.db) : rowsOf x = rowsOf y := by
  simp [rowsOf, h]

theorem StateWF_some (ob : Outbox) (h : OutboxWF ob) (tok : Option String) (d : Nat) :
    StateWF ⟨some ob, tok, d⟩ := by
  intro ob2 h2
  cases h2
  exact h

/-- Case analysis of `syncRest`: either it succeeds without touching the store
(nothing pending), or it raises an exception (store untouched), or the read,
upload and delete all succeeded and it commits the batch delete. -/
theorem syncRest_rows (env : CycleEnv) (s1 : AppState) :
    (∃ s2, syncRest env s1 = .ok s2 ∧ s2.db = s1.db ∧ s2.retryDelay = 10000) ∨
    (∃ e, syncRest env s1 = .error e) ∨
    (env.readOk = true ∧ env.uploadOk = true ∧ env.deleteOk = true ∧
      ∃ ob, s1.db = some ob ∧ (peekBatch ob).length ≠ 0 ∧
        syncRest env s1 =
          .ok { s1 with db := some (deleteBatch ((peekBatch ob).map (fun x => x.id)) ob),
                        retryDelay := 10000 }) := by
  rcases hdb : s1.db with _ | ob
  · exact Or.inr (Or.inl ⟨.storage, by simp [syncRest, hdb]⟩)
  · cases hread : env.readOk with
    | false => exact Or.inr (Or.inl ⟨.storage, by simp [syncRest, hdb, hread]⟩)
    | true =>
      by_cases hlen : (peekBatch ob).length = 0
      · exact Or.inl ⟨{ s1 with retryDelay := 10000 },
          by simp [syncRest, hdb, hread, hlen], hdb, rfl⟩
      · cases hup : env.uploadOk with
        | false => exact Or.inr (Or.inl ⟨.network, by simp [syncRest, hdb, hread, hlen, hup]⟩)
        | true =>
          cases hdel : env.deleteOk with
          | false =>
            exact Or.inr (Or.inl ⟨.storage, by simp [syncRest, hdb, hread, hlen, hup, hdel]⟩)
          | true =>
            exact Or.inr (Or.inr ⟨rfl, rfl, rfl, ob, rfl, hlen,
              by simp [syncRest, hdb, hread, hlen, hup, hdel]⟩)

theorem cycle_rows_of_rest (env : CycleEnv) (s s1 : AppState)
    (hbody : syncCycleBody env s = syncRest env s1)
    (hdb : s1.db = s.db) (hauth : cycleAuthOk env s = true) :
    rowsOf (syncCycle env s) = rowsOf s ∨
      (cycleAuthOk env s = true ∧ env.readOk = true ∧ env.uploadOk = true ∧
        env.deleteOk = true ∧ ∃ ob, s.db = some ob ∧
        rowsOf (syncCycle env s) = (deleteBatch ((peekBatch ob).map (fun x => x.id)) ob).rows) := by
  rcases syncRest_rows env s1 with ⟨s2, hok, hdb2, _⟩ | ⟨e, herr⟩ | ⟨hr, hu, hd, ob, hob, _, hok⟩
  · left
    have hcyc : syncCycle env s = s2 := by simp [syncCycle, hbody, hok]
    rw [hcyc]
    exact rowsOf_congr s2 s (hdb2.trans hdb)
  · left
    have hcyc : syncCycle env s =
        { s with authToken := none, retryDelay := backoffFail s.retryDelay } := by
      simp [syncCycle, hbody, herr]
    rw [hcyc]
    rfl
  · right
    refine ⟨hauth, hr, hu, hd, ob, by rw [← hdb]; exact hob, ?_⟩
    have hcyc : syncCycle env s =
        { s1 with db := some (deleteBatch ((peekBatch ob).map (fun x => x.id)) ob),
                  retryDelay := 10000 } := by
      simp [syncCycle, hbody, hok]
    rw [hcyc]
    rfl

/-- Case analysis of one sync cycle's effect on the store: either the rows are
untouched, or the cycle performed a fully acknowledged batch upload and the
post-state rows are those surviving the batch delete. -/
theorem cycle_rows (env : CycleEnv) (s : AppState) :
    rowsOf (syncCycle env s) = rowsOf s ∨
      (cycleAuthOk env s = true ∧ env.readOk = true ∧ env.uploadOk = true ∧
        env.deleteOk = true ∧ ∃ ob, s.db = some ob ∧
        rowsOf (syncCycle env s) = (deleteBatch ((peekBatch ob).map (fun x => x.id)) ob).rows) := by
  cases htok : s.authToken with
  | some t =>
    have hbody : syncCycleBody env s = syncRest env s := by simp [syncCycleBody, htok]
    exact cycle_rows_of_rest env s s hbody rfl (by simp [cycleAuthOk, htok])
  | none =>
    cases hsta : env.stationId with
    | none =>
      left
      have hcyc : syncCycle env s = { s with retryDelay := backoffFail s.retryDelay } := by
        simp [syncCycle, syncCycleBody, htok, tryReLogin, hsta]
      rw [hcyc]
      exact rowsOf_congr { s with retryDelay := backoffFail s.retryDelay } s rfl
    | some a =>
      cases hresp : env.loginResp with
      | none =>
        left
        have hcyc : syncCycle env s = { s with retryDelay := backoffFail s.retryDelay } := by
          simp [syncCycle, syncCycleBody, htok, tryReLogin, hsta, hresp]
        rw [hcyc]
        exact rowsOf_congr { s with retryDelay := backoffFail s.retryDelay } s rfl
      | some t =>
        have hbody : syncCycleBody env s = syncRest env { s with authToken := some t } := by
          simp [syncCycleBody, htok, tryReLogin, hsta, hresp]
        exact cycle_rows_of_rest env s { s with authToken := some t } hbody rfl
          (by simp [cycleAuthOk, hsta, hresp])

/-! ### C1 -/

/-- A `sendLocation` call never removes a record that was already in the
store: its delete targets only the freshly inserted id, which is above every
existing id in a well-formed store. -/
theorem sendLocation_mem_preserved (lat lng : Int) (now : Nat) (up : Bool)
    (s : AppState) (r : LocationRecord) (hwf : StateWF s) (hin : r ∈ rowsOf s) :
    r ∈ rowsOf (applyOp (Op.sendLoc lat lng now up) s) := by
  rcases hdb : s.db with _ | ob
  · simpa [applyOp, sendLocation, hdb] using hin
  · have hrin : r ∈ ob.rows := by simpa [rowsOf, hdb] using hin
    have hlt : r.id < ob.nextId := (hwf ob hdb).2 r hrin
    rcases htok : s.authToken with _ | t
    · simp [applyOp, sendLocation, hdb, htok, rowsOf]
      exact Or.inl hrin
    · cases up with
      | false =>
        simp [applyOp, sendLocation, hdb, htok, rowsOf]
        exact Or.inl hrin
      | true =>
        simp [applyOp, sendLocation, hdb, htok, rowsOf, deleteById, List.mem_filter]
        exact ⟨hrin, by omega⟩

theorem autoLogin_rows (resp : Option String) (s : AppState) :
    rowsOf (applyOp (Op.login resp) s) = rowsOf s := by
  cases resp with
  | none => rfl
  | some t => exact rowsOf_congr (applyOp (Op.login (some t)) s) s rfl

/-- Any record removed from the store by any operation was removed by a sync
cycle whose batch upload was acknowledged and whose batch contained it. -/
theorem no_delete_without_ack (op : Op) (s : AppState) (r : LocationRecord)
    (hwf : StateWF s) (hin : r ∈ rowsOf s) (hout : r ∉ rowsOf (applyOp op s)) :
    ∃ env, op = Op.cycle env ∧ ackedBatchDelete env s r := by
  cases op with
  | sendLoc lat lng now up =>
    exact absurd (sendLocation_mem_preserved lat lng now up s r hwf hin) hout
  | heartbeat hbOk =>
    refine absurd ?_ hout
    have h : rowsOf (applyOp (Op.heartbeat hbOk) s) = rowsOf s := by
      simp [applyOp]
      rw [sendHeartbeat_state]
    rwa [h]
  | login resp => exact absurd ((autoLogin_rows resp s) ▸ hin) hout
  | cycle env =>
    refine ⟨env, rfl, ?_⟩
    rcases cycle_rows env s with heq | ⟨hauth, hr, hu, hd, ob, hob, heq⟩
    · exact absurd (show r ∈ rowsOf (applyOp (Op.cycle env) s) from heq ▸ hin) hout
    · have hrin : r ∈ ob.rows := by simpa [rowsOf, hob] using hin
      have hwf' : OutboxWF ob := hwf ob hob
      have hidmem : r.id ∈ (peekBatch ob).map (fun x => x.id) := by
        by_contra hcon
        exact hout (show r ∈ rowsOf (applyOp (Op.cycle env) s) by
          show r ∈ rowsOf (syncCycle env s)
          rw [heq, mem_deleteBatch]
          exact ⟨hrin, hcon⟩)
      rcases List.mem_map.mp hidmem with ⟨b, hb, hbid⟩
      have hbrows : b ∈ ob.rows := List.take_subset 20 ob.rows hb
      have hbr : b = r := pairwise_id_inj ob.rows hwf'.1 b r hbrows hrin hbid
      exact ⟨hauth, hr, hu, hd, ob, hob, hbr ▸ hb⟩

/-- The record freshly inserted by a `sendLocation` call stays in the store
afterwards unless the immediate single-record upload was acknowledged (a held
token and a successful post), in which case — and only then — it is deleted. -/
theorem sendLocation_fresh_iff (lat lng : Int) (now : Nat) (up : Bool)
    (s : AppState) (ob : Outbox) (hdb : s.db = some ob) :
    ((⟨ob.nextId, lat, lng, now⟩ : LocationRecord) ∈
        rowsOf (applyOp (Op.sendLoc lat lng now up) s) ↔
      ¬(s.authToken.isSome = true ∧ up = true)) := by
  rcases htok : s.authToken with _ | t
  · simp [applyOp, sendLocation, hdb, htok, rowsOf]
  · cases up with
    | false => simp [applyOp, sendLocation, hdb, htok, rowsOf]
    | true => simp [applyOp, sendLocation, hdb, htok, rowsOf, deleteById, List.mem_filter]

/-- C1: no record is ever lost without an acknowledged upload.  First part: if
a record present in a well-formed store is absent after any operation, that
operation was a sync cycle that performed an acknowledged batch upload (read,
upload post and delete transaction all succeeded under a held token) whose
batch contained the record; nothing else — a failed cycle, a heartbeat, a
login, or an ingestion call — ever removes it.  Second part: the record
inserted by an ingestion call is still in the store right afterwards unless
the immediate single-record upload completed successfully (the only case in
which `sendLocation` deletes it). -/
theorem c1_no_loss :
    (∀ (op : Op) (s : AppState) (r : LocationRecord), StateWF s → r ∈ rowsOf s →
        r ∉ rowsOf (applyOp op s) → ∃ env, op = Op.cycle env ∧ ackedBatchDelete env s r) ∧
    (∀ (lat lng : Int) (now : Nat) (up : Bool) (s : AppState) (ob : Outbox),
        s.db = some ob →
        ((⟨ob.nextId, lat, lng, now⟩ : LocationRecord) ∈
            rowsOf (applyOp (Op.sendLoc lat lng now up) s) ↔
          ¬(s.authToken.isSome = true ∧ up = true))) :=
  ⟨fun op s r hwf hin hout => no_delete_without_ack op s r hwf hin hout,
   fun lat lng now up s ob hdb => sendLocation_fresh_iff lat lng now up s ob hdb⟩

/-- A cycle environment in which every remote and storage interaction succeeds. -/
def c1env : CycleEnv := ⟨some "ST", some "tok", true, true, true⟩

/-- A concrete pending record. -/
def c1rec : LocationRecord := ⟨1, 7, 8, 9⟩

/-- A concrete state holding `c1rec` pending and a session token. -/
def c1state : AppState := ⟨some ⟨[c1rec], 2⟩, some "t", 10000⟩

/-- C1 witness: applying the theorem at a concrete fully successful cycle that
removes `c1rec` yields the acknowledged-batch-upload conclusion for it. -/
theorem c1_witness : ackedBatchDelete c1env c1state c1rec := by
  have h := c1_no_loss.1 (Op.cycle c1env) c1state c1rec
    (StateWF_some ⟨[c1rec], 2⟩ ⟨by decide, by decide⟩ (some "t") 10000)
    (by decide) (by decide)
  rcases h with ⟨env, heq, hack⟩
  cases heq
  exact hack

/-! ### C2 -/

/-- C2: on a well-formed store the sync cycle's batch read returns at most 20
records, in strictly increasing id order — the oldest pending records first —
and the batch is downward closed: every pending record with an id below that of
a batched record is itself in the batch.  Hence for two pending records A
inserted before B (so with a lower id), whenever B appears in the batch, A
appears at a strictly earlier position, and A is never skipped in favour of B. -/
theorem c2_batch_ordering (ob : Outbox) (h : OutboxWF ob) :
    (peekBatch ob).length ≤ 20 ∧
    (peekBatch ob).Pairwise (fun a b => a.id < b.id) ∧
    ∀ a b, a ∈ ob.rows → b ∈ peekBatch ob → a.id < b.id → a ∈ peekBatch ob := by
  refine ⟨List.length_take_le 20 ob.rows,
    List.Pairwise.sublist (List.take_sublist 20 ob.rows) h.1, ?_⟩
  intro a b ha hb hab
  have hsplit := List.take_append_drop 20 ob.rows
  have hpw : (List.take 20 ob.rows ++ List.drop 20 ob.rows).Pairwise
      (fun x y => x.id < y.id) := by
    rw [hsplit]; exact h.1
  rw [List.pairwise_append] at hpw
  have ha' : a ∈ List.take 20 ob.rows ∨ a ∈ List.drop 20 ob.rows := by
    rw [← List.mem_append, hsplit]; exact ha
  rcases ha' with h1 | h1
  · exact h1
  · exact absurd (hpw.2.2 b hb a h1) (by omega)

/-- A concrete well-formed outbox with three pending records. -/
def c2outbox : Outbox := ⟨[⟨1, 10, 20, 100⟩, ⟨2, 11, 21, 200⟩, ⟨3, 12, 22, 300⟩], 4⟩

/-- C2 witness: the theorem applied to `c2outbox`; the batch respects the
length bound and, the record with id 3 being batched, the older record with
id 1 is in the batch as well. -/
theorem c2_witness :
    (peekBatch c2outbox).length ≤ 20 ∧
    (⟨1, 10, 20, 100⟩ : LocationRecord) ∈ peekBatch c2outbox := by
  have h := c2_batch_ordering c2outbox ⟨by decide, by decide⟩
  exact ⟨h.1, h.2.2 ⟨1, 10, 20, 100⟩ ⟨3, 12, 22, 300⟩ (by decide) (by decide) (by decide)⟩

/-! ### C4 and C9 -/

/-- When the cycle reaches the batch upload (token held or re-login succeeded,
read succeeded, batch nonempty) and the upload fails, the body raises a network
error. -/
theorem syncBody_upload_failure (env : CycleEnv) (s : AppState) (ob : Outbox)
    (hdb : s.db = some ob) (hauth : cycleAuthOk env s = true)
    (hread : env.readOk = true) (hne : (peekBatch ob).length ≠ 0)
    (hup : env.uploadOk = false) :
    syncCycleBody env s = .error .network := by
  have hrest : ∀ s1 : AppState, s1.db = some ob → syncRest env s1 = .error .network := by
    intro s1 h1
    simp [syncRest, h1, hread, hne, hup]
  cases htok : s.authToken with
  | some t =>
    have hbody : syncCycleBody env s = syncRest env s := by simp [syncCycleBody, htok]
    rw [hbody]
    exact hrest s hdb
  | none =>
    rw [cycleAuthOk, htok] at hauth
    simp only [Option.isSome_none, Bool.false_or, Bool.and_eq_true] at hauth
    rcases Option.isSome_iff_exists.mp hauth.1 with ⟨a, hsta⟩
    rcases Option.isSome_iff_exists.mp hauth.2 with ⟨t, hresp⟩
    have hbody : syncCycleBody env s = syncRest env { s with authToken := some t } := by
      simp [syncCycleBody, htok, tryReLogin, hsta, hresp]
    rw [hbody]
    exact hrest { s with authToken := some t } hdb

/-- C4: in a sync cycle whose batch upload fails (the batch post throws on a
network error, non-2xx status or auth rejection), the catch block clears the
session token and doubles the backoff delay capped at 60000 ms, and the store
is untouched: every record pending before the cycle is still pending after. -/
theorem c4_upload_failure (env : CycleEnv) (s : AppState) (ob : Outbox)
    (hdb : s.db = some ob) (hauth : cycleAuthOk env s = true)
    (hread : env.readOk = true) (hne : (peekBatch ob).length ≠ 0)
    (hup : env.uploadOk = false) :
    syncCycle env s =
      { s with authToken := none, retryDelay := min (s.retryDelay * 2) 60000 } ∧
    rowsOf (syncCycle env s) = rowsOf s := by
  have hbody := syncBody_upload_failure env s ob hdb hauth hread hne hup
  have hcyc : syncCycle env s =
      { s with authToken := none, retryDelay := min (s.retryDelay * 2) 60000 } := by
    simp [syncCycle, hbody, backoffFail, capDelay]
  exact ⟨hcyc, by rw [hcyc]; exact rowsOf_congr _ s rfl⟩

/-- A cycle environment whose batch upload fails while everything else works. -/
def c4env : CycleEnv := ⟨some "ST", some "tok", true, false, true⟩

/-- A concrete state with one pending record and a held token. -/
def c4state : AppState := ⟨some ⟨[⟨1, 5, 6, 7⟩], 2⟩, some "t", 10000⟩

/-- C4 witness: the theorem applied to the concrete failing-upload cycle. -/
theorem c4_witness :
    syncCycle c4env c4state =
      { c4state with authToken := none, retryDelay := min (c4state.retryDelay * 2) 60000 } ∧
    rowsOf (syncCycle c4env c4state) = rowsOf c4state :=
  c4_upload_failure c4env c4state ⟨[⟨1, 5, 6, 7⟩], 2⟩ rfl (by decide) rfl (by decide) rfl

/-- C9: every exception raised inside the sync cycle's `try` block —
authentication, network, server, or local storage error during read or delete —
is caught by the cycle's `catch`, whose only effect is to clear the session
token and apply the capped backoff doubling; the store rows are unchanged and
no exception escapes the worker (`syncCycle` is a total function into states).
A failed re-login attempt is not even an exception: `tryReLogin` catches it
internally and the loop just doubles the delay and continues. -/
theorem c9_errors_contained (env : CycleEnv) (s : AppState) (e : CycleErr)
    (h : syncCycleBody env s = .error e) :
    syncCycle env s =
      { s with authToken := none, retryDelay := min (s.retryDelay * 2) 60000 } ∧
    rowsOf (syncCycle env s) = rowsOf s := by
  have hcyc : syncCycle env s =
      { s with authToken := none, retryDelay := min (s.retryDelay * 2) 60000 } := by
    simp [syncCycle, h, backoffFail, capDelay]
  exact ⟨hcyc, by rw [hcyc]; exact rowsOf_congr _ s rfl⟩

/-- A cycle environment for the C9 witness. -/
def c9env : CycleEnv := ⟨some "ST", some "tok", true, true, true⟩

/-- A state whose database handle is uninitialized: the batch read throws. -/
def c9state : AppState := ⟨none, some "t", 10000⟩

/-- C9 witness: at a concrete state where the cycle body raises a storage
error, the cycle returns normally with only token and delay adjusted. -/
theorem c9_witness :
    syncCycle c9env c9state =
      { c9state with authToken := none, retryDelay := min (c9state.retryDelay * 2) 60000 } ∧
    rowsOf (syncCycle c9env c9state) = rowsOf c9state :=
  c9_errors_contained c9env c9state .storage rfl

/-! ### C5 -/

/-- Delay equation for the part of the cycle after authentication holds. -/
theorem restDelay_eq (env : CycleEnv) (s s1 : AppState)
    (hbody : syncCycleBody env s = syncRest env s1)
    (hdb : s1.db = s.db)
    (hauth : cycleAuthOk env s = true) :
    (syncCycle env s).retryDelay =
      if cycleFails env s then backoffFail s.retryDelay else baseDelay := by
  have hfails : cycleFails env s =
      (match s.db with
       | none => true
       | some ob =>
         if !env.readOk then true
         else if (peekBatch ob).length = 0 then false
         else !env.uploadOk || !env.deleteOk) := by
    simp [cycleFails, hauth]
  rcases hob : s1.db with _ | ob
  · have herr : syncRest env s1 = .error .storage := by simp [syncRest, hob]
    have hcyc : syncCycle env s =
        { s with authToken := none, retryDelay := backoffFail s.retryDelay } := by
      simp [syncCycle, hbody, herr]
    rw [hcyc, hfails, ← hdb, hob]
    simp
  · cases hread : env.readOk with
    | false =>
      have herr : syncRest env s1 = .error .storage := by simp [syncRest, hob, hread]
      have hcyc : syncCycle env s =
          { s with authToken := none, retryDelay := backoffFail s.retryDelay } := by
        simp [syncCycle, hbody, herr]
      rw [hcyc, hfails, ← hdb, hob]
      simp [hread]
    | true =>
      by_cases hlen : (peekBatch ob).length = 0
      · have hok : syncRest env s1 = .ok { s1 with retryDelay := 10000 } := by
          simp [syncRest, hob, hread, hlen]
        have hcyc : syncCycle env s = { s1 with retryDelay := 10000 } := by
          simp [syncCycle, hbody, hok]
        rw [hcyc, hfails, ← hdb, hob]
        simp [hread, hlen, baseDelay]
      · cases hup : env.uploadOk with
        | false =>
          have herr : syncRest env s1 = .error .network := by
            simp [syncRest, hob, hread, hlen, hup]
          have hcyc : syncCycle env s =
              { s with authToken := none, retryDelay := backoffFail s.retryDelay } := by
            simp [syncCycle, hbody, herr]
          rw [hcyc, hfails, ← hdb, hob]
          simp [hread, hlen, hup]
        | true =>
          cases hdel : env.deleteOk with
          | false =>
            have herr : syncRest env s1 = .error .storage := by
              simp [syncRest, hob, hread, hlen, hup, hdel]
            have hcyc : syncCycle env s =
                { s with authToken := none, retryDelay := backoffFail s.retryDelay } := by
              simp [syncCycle, hbody, herr]
            rw [hcyc, hfails, ← hdb, hob]
            simp [hread, hlen, hup, hdel]
          | true =>
            have hok : syncRest env s1 =
                .ok { s1 with db := some (deleteBatch ((peekBatch ob).map (fun x => x.id)) ob),
                              retryDelay := 10000 } := by
              simp [syncRest, hob, hread, hlen, hup, hdel]
            have hcyc : syncCycle env s =
                { s1 with db := some (deleteBatch ((peekBatch ob).map (fun x => x.id)) ob),
                          retryDelay := 10000 } := by
              simp [syncCycle, hbody, hok]
            rw [hcyc, hfails, ← hdb, hob]
            simp [hread, hlen, hup, hdel, baseDelay]

/-- The delay after one sync cycle: the capped doubling of the previous delay
when the cycle fails, the base delay when it fully succeeds. -/
theorem cycleDelay_eq (env : CycleEnv) (s : AppState) :
    (syncCycle env s).retryDelay =
      if cycleFails env s then backoffFail s.retryDelay else baseDelay := by
  cases htok : s.authToken with
  | none =>
    cases hsta : env.stationId with
    | none =>
      simp [syncCycle, syncCycleBody, tryReLogin, hsta, htok, cycleFails, cycleAuthOk]
    | some a =>
      cases hresp : env.loginResp with
      | none =>
        simp [syncCycle, syncCycleBody, tryReLogin, hsta, hresp, htok, cycleFails, cycleAuthOk]
      | some t =>
        have hbody : syncCycleBody env s = syncRest env { s with authToken := some t } := by
          simp [syncCycleBody, htok, tryReLogin, hsta, hresp]
        exact restDelay_eq env s { s with authToken := some t } hbody rfl
          (by simp [cycleAuthOk, hsta, hresp])
  | some t =>
    have hbody : syncCycleBody env s = syncRest env s := by simp [syncCycleBody, htok]
    exact restDelay_eq env s s hbody rfl (by simp [cycleAuthOk, htok])

/-- N-fold capped doubling from the base delay is exactly min(b·2^N, c). -/
theorem backoffFail_iterate (N : Nat) :
    backoffFail^[N] baseDelay = min (baseDelay * 2 ^ N) capDelay := by
  induction N with
  | zero =>
    simp only [Function.iterate_zero_apply, pow_zero, mul_one, baseDelay, capDelay]
    omega
  | succ n ih =>
    rw [Function.iterate_succ_apply', ih]
    simp only [backoffFail, pow_succ, ← mul_assoc, baseDelay, capDelay]
    generalize (10000 : Nat) * 2 ^ n = x
    omega

theorem sendLocation_delay (lat lng : Int) (now : Nat) (up : Bool) (s : AppState) :
    ((sendLocation lat lng now up s).1).retryDelay = s.retryDelay := by
  rcases s with ⟨db, tok, d⟩
  cases db <;> cases tok <;> cases up <;> rfl

/-- The retry delay stays within [baseDelay, capDelay] under every operation. -/
theorem delay_in_range (op : Op) (s : AppState)
    (h1 : baseDelay ≤ s.retryDelay) (h2 : s.retryDelay ≤ capDelay) :
    baseDelay ≤ (applyOp op s).retryDelay ∧ (applyOp op s).retryDelay ≤ capDelay := by
  cases op with
  | sendLoc lat lng now up =>
    have h := sendLocation_delay lat lng now up s
    simp only [applyOp]
    rw [h]
    exact ⟨h1, h2⟩
  | heartbeat hbOk =>
    simp only [applyOp]
    rw [sendHeartbeat_state]
    exact ⟨h1, h2⟩
  | login resp =>
    cases resp with
    | none => exact ⟨h1, h2⟩
    | some t => constructor <;> simp [applyOp, autoLogin, baseDelay, capDelay]
  | cycle env =>
    have h := cycleDelay_eq env s
    simp only [applyOp]
    rw [h]
    simp only [baseDelay, capDelay, backoffFail] at h1 h2 ⊢
    by_cases hf : cycleFails env s = true
    · simp only [hf, if_true]
      omega
    · simp [hf]

/-- C5: the backoff policy of the sync loop.  (1) Each cycle's resulting delay
is the capped doubling `min(d·2, 60000)` of the previous delay on any failed
cycle (authentication failure, storage failure, or nonempty batch with a
failed upload or delete), and resets to the base 10000 ms on any fully
successful cycle (authenticated with all steps succeeding, or authenticated
with nothing pending).  (2) Hence N consecutive failed cycles starting from
the base delay leave the delay at `min(baseDelay · 2^N, capDelay)`.  (3) The
delay stays within [baseDelay, capDelay] under every operation of the
process. -/
theorem c5_backoff_policy :
    (∀ (env : CycleEnv) (s : AppState),
        (syncCycle env s).retryDelay =
          if cycleFails env s then backoffFail s.retryDelay else baseDelay) ∧
    (∀ N : Nat, backoffFail^[N] baseDelay = min (baseDelay * 2 ^ N) capDelay) ∧
    (∀ (op : Op) (s : AppState), baseDelay ≤ s.retryDelay → s.retryDelay ≤ capDelay →
        baseDelay ≤ (applyOp op s).retryDelay ∧ (applyOp op s).retryDelay ≤ capDelay) :=
  ⟨cycleDelay_eq, backoffFail_iterate, delay_in_range⟩

/-- A cycle environment whose re-login fails (station id never configured). -/
def c5env : CycleEnv := ⟨none, none, true, true, true⟩

/-- A concrete state with no token, empty store and base delay. -/
def c5state : AppState := ⟨some ⟨[], 1⟩, none, 10000⟩

/-- C5 witness: the theorem's three parts applied at concrete inputs, the
range part with its hypotheses discharged at the base delay. -/
theorem c5_witness :
    ((syncCycle c5env c5state).retryDelay =
      if cycleFails c5env c5state then backoffFail c5state.retryDelay else baseDelay) ∧
    backoffFail^[3] baseDelay = min (baseDelay * 2 ^ 3) capDelay ∧
    (baseDelay ≤ (applyOp (Op.cycle c5env) c5state).retryDelay ∧
      (applyOp (Op.cycle c5env) c5state).retryDelay ≤ capDelay) :=
  ⟨c5_backoff_policy.1 c5env c5state, c5_backoff_policy.2.1 3,
    c5_backoff_policy.2.2 (Op.cycle c5env) c5state (by decide) (by decide)⟩

/-! ### C7 -/

/-- C7: while a session token is held, the ensure-authenticated operation
(`loginIfNeeded`) returns true immediately, changes no state, and issues no
network call; repeating it any number of times still issues no network call
(idempotent fast path). -/
theorem c7_fast_path (stationId resp : Option String) (s : AppState) (t : String)
    (h : s.authToken = some t) :
    loginIfNeeded stationId resp s = (true, s, []) ∧
    ∀ n : Nat, loginIterate n stationId resp s = (s, []) := by
  have h1 : loginIfNeeded stationId resp s = (true, s, []) := by
    simp [loginIfNeeded, h]
  refine ⟨h1, ?_⟩
  intro n
  induction n with
  | zero => rfl
  | succ m ih => simp [loginIterate, h1, ih]

/-- A concrete state holding a session token. -/
def c7state : AppState := ⟨some ⟨[], 1⟩, some "held", 10000⟩

/-- C7 witness: the theorem applied at a held token, including five repeated
invocations without any network call. -/
theorem c7_witness :
    loginIfNeeded (some "ST") (some "fresh") c7state = (true, c7state, []) ∧
    loginIterate 5 (some "ST") (some "fresh") c7state = (c7state, []) := by
  have h := c7_fast_path (some "ST") (some "fresh") c7state "held" rfl
  exact ⟨h.1, h.2 5⟩

/-! ### Preservation of the store invariant -/

theorem OutboxWF_deleteById (i : Nat) (ob : Outbox) (h : OutboxWF ob) :
    OutboxWF (deleteById i ob) := by
  constructor
  · exact List.Pairwise.sublist (List.filter_sublist ob.rows) h.1
  · intro r hr
    exact h.2 r (List.mem_of_mem_filter hr)

theorem OutboxWF_deleteBatch (ids : List Nat) (ob : Outbox) (h : OutboxWF ob) :
    OutboxWF (deleteBatch ids ob) := by
  induction ids generalizing ob with
  | nil => exact h
  | cons i is ih =>
    rw [deleteBatch_cons]
    exact ih (deleteById i ob) (OutboxWF_deleteById i ob h)

theorem OutboxWF_insert (ob : Outbox) (lat lng : Int) (now : Nat) (h : OutboxWF ob) :
    OutboxWF ⟨ob.rows ++ [⟨ob.nextId, lat, lng, now⟩], ob.nextId + 1⟩ := by
  constructor
  · rw [List.pairwise_append]
    refine ⟨h.1, by simp, fun a ha b hb => ?_⟩
    rw [List.mem_singleton] at hb
    subst hb
    exact h.2 a ha
  · intro r hr
    rcases List.mem_append.mp hr with h1 | h1
    · have := h.2 r h1
      show r.id < ob.nextId + 1
      omega
    · rw [List.mem_singleton] at h1
      subst h1
      show ob.nextId < ob.nextId + 1
      omega

theorem cycle_db_of_rest (env : CycleEnv) (s s1 : AppState)
    (hbody : syncCycleBody env s = syncRest env s1) (hdb : s1.db = s.db) :
    (syncCycle env s).db = s.db ∨
      ∃ ob, s.db = some ob ∧
        (syncCycle env s).db = some (deleteBatch ((peekBatch ob).map (fun x => x.id)) ob) := by
  rcases syncRest_rows env s1 with ⟨s2, hok, hdb2, _⟩ | ⟨e, herr⟩ | ⟨_, _, _, ob, hob, _, hok⟩
  · left
    have hcyc : syncCycle env s = s2 := by simp [syncCycle, hbody, hok]
    rw [hcyc, hdb2, hdb]
  · left
    have hcyc : syncCycle env s =
        { s with authToken := none, retryDelay := backoffFail s.retryDelay } := by
      simp [syncCycle, hbody, herr]
    rw [hcyc]
  · right
    refine ⟨ob, by rw [← hdb]; exact hob, ?_⟩
    have hcyc : syncCycle env s =
        { s1 with db := some (deleteBatch ((peekBatch ob).map (fun x => x.id)) ob),
                  retryDelay := 10000 } := by
      simp [syncCycle, hbody, hok]
    rw [hcyc]

/-- The database handle after one cycle: unchanged, or holding the store that
survives the acknowledged batch delete. -/
theorem cycle_db (env : CycleEnv) (s : AppState) :
    (syncCycle env s).db = s.db ∨
      ∃ ob, s.db = some ob ∧
        (syncCycle env s).db = some (deleteBatch ((peekBatch ob).map (fun x => x.id)) ob) := by
  cases htok : s.authToken with
  | some t =>
    exact cycle_db_of_rest env s s (by simp [syncCycleBody, htok]) rfl
  | none =>
    cases hsta : env.stationId with
    | none =>
      left
      have hcyc : syncCycle env s = { s with retryDelay := backoffFail s.retryDelay } := by
        simp [syncCycle, syncCycleBody, htok, tryReLogin, hsta]
      rw [hcyc]
    | some a =>
      cases hresp : env.loginResp with
      | none =>
        left
        have hcyc : syncCycle env s = { s with retryDelay := backoffFail s.retryDelay } := by
          simp [syncCycle, syncCycleBody, htok, tryReLogin, hsta, hresp]
        rw [hcyc]
      | some t =>
        exact cycle_db_of_rest env s { s with authToken := some t }
          (by simp [syncCycleBody, htok, tryReLogin, hsta, hresp]) rfl

/-- Every operation preserves well-formedness of the store, so `StateWF` is an
invariant of all reachable states. -/
theorem StateWF_applyOp (op : Op) (s : AppState) (hwf : StateWF s) :
    StateWF (applyOp op s) := by
  cases op with
  | heartbeat hbOk =>
    intro ob h
    simp only [applyOp] at h
    rw [sendHeartbeat_state] at h
    exact hwf ob h
  | login resp =>
    intro ob h
    cases resp with
    | none => exact hwf ob h
    | some t => exact hwf ob h
  | sendLoc lat lng now up =>
    intro ob2 h2
    simp only [applyOp] at h2
    rcases hdb : s.db with _ | ob
    · simp [sendLocation, hdb] at h2
    · rcases htok : s.authToken with _ | t
      · have he : some (⟨ob.rows ++ [⟨ob.nextId, lat, lng, now⟩], ob.nextId + 1⟩ : Outbox) =
            some ob2 := by
          rw [← h2]
          simp [sendLocation, hdb, htok]
        injection he with he
        subst he
        exact OutboxWF_insert ob lat lng now (hwf ob hdb)
      · cases up with
        | false =>
          have he : some (⟨ob.rows ++ [⟨ob.nextId, lat, lng, now⟩], ob.nextId + 1⟩ : Outbox) =
              some ob2 := by
            rw [← h2]
            simp [sendLocation, hdb, htok]
          injection he with he
          subst he
          exact OutboxWF_insert ob lat lng now (hwf ob hdb)
        | true =>
          have he : some (deleteById ob.nextId
              ⟨ob.rows ++ [⟨ob.nextId, lat, lng, now⟩], ob.nextId + 1⟩) = some ob2 := by
            rw [← h2]
            simp [sendLocation, hdb, htok]
          injection he with he
          subst he
          exact OutboxWF_deleteById ob.nextId _ (OutboxWF_insert ob lat lng now (hwf ob hdb))
  | cycle env =>
    intro ob2 h2
    simp only [applyOp] at h2
    rcases cycle_db env s with heq | ⟨ob, hob, heq⟩
    · rw [heq] at h2
      exact hwf ob2 h2
    · rw [heq] at h2
      injection h2 with h3
      subst h3
      exact OutboxWF_deleteBatch ((peekBatch ob).map (fun x => x.id)) ob (hwf ob hob)

/-- The freshly created store is well-formed. -/
theorem StateWF_initialState : StateWF initialState := by
  intro ob h
  cases h
  exact ⟨List.Pairwise.nil, by simp⟩
